import Mathlib

/-!
Verification of the outline-to-document synchronization engine of the
Excerpt-Outline-Mindmap-Editor plugin.

The development shallowly embeds the TypeScript sources:
  * `src/mindmap-file.ts` — the text-splice operations (`addChild`,
    `addSibling`, `writeNode`, `deleteNode`, `deleteNodeKeepChildren`,
    `moveSubtree`, `addChildText`) as pure functions from the read document
    text to the returned text (the vault read / persist round-trip is the
    identity on the computed text, so the pure core is exactly the
    split-lines / mutate / join pipeline of the source);
  * `src/command-history.ts` — the bounded undo/redo stack;
  * `src/util.ts` — the outline parser (`parseOutline`), embedded as a
    fold over the enumerated lines; the parent/child structure the source
    builds by mutating `children` arrays is represented by parent indices
    (`RawNode.parent`), which determine the same forest.

Strings are modelled with Lean `String`; JavaScript `.length`, `substring`,
`startsWith`, `repeat` agree with the character-list model on the
basic-multilingual-plane / ASCII documents this plugin manipulates.
JavaScript `\s` is modelled by its ASCII subset (space, tab, CR, LF,
vertical tab, form feed), which covers every whitespace character the
sources themselves produce.  Fallible paths (a JavaScript `TypeError` from
indexing an array at a negative position) are modelled with `Option`.
-/

/-- ASCII subset of the JavaScript `\s` character class. -/
def isWs (c : Char) : Bool :=
  c = ' ' || c = '\t' || c = '\n' || c = '\r' || c = '\x0b' || c = '\x0c'

/-- `listIsPrefix p s` is JavaScript `s.startsWith(p)` on character lists. -/
def listIsPrefix : List Char → List Char → Bool
  | [], _ => true
  | _ :: _, [] => false
  | a :: as, b :: bs => a = b && listIsPrefix as bs

/-- JavaScript `s.startsWith(p)`. -/
def strStartsWith (s p : String) : Bool := listIsPrefix p.data s.data

/-- JavaScript `s.length` (character count; equal on BMP text). -/
def strLen (s : String) : Nat := s.data.length

/-- JavaScript `s.substring(n)` / drop of the first `n` characters. -/
def strDrop (s : String) (n : Nat) : String := String.mk (s.data.drop n)

/-- JavaScript `s.substring(0, n)`. -/
def strTake (s : String) (n : Nat) : String := String.mk (s.data.take n)

/-- The leading-whitespace match `line.match(/^(\s*)/)[1]`. -/
def leadingWs (s : String) : String := String.mk (s.data.takeWhile isWs)

/-- JavaScript `line.trim() === ''`. -/
def isBlank (s : String) : Bool := s.data.all isWs

/-- `'\t'.repeat(n)`. -/
def tabs (n : Nat) : String := String.mk (List.replicate n '\t')

/-- Splitting on the JavaScript regex `/\r?\n/`: a separator is `"\n"`,
optionally preceded by `"\r"`; a carriage return not followed by a line
feed stays inside its line. -/
def splitLinesAux : List Char → List Char → List String
  | [], acc => [String.mk acc.reverse]
  | '\r' :: '\n' :: rest, acc => String.mk acc.reverse :: splitLinesAux rest []
  | '\n' :: rest, acc => String.mk acc.reverse :: splitLinesAux rest []
  | c :: rest, acc => splitLinesAux rest (c :: acc)

/-- JavaScript `text.split(/\r?\n/)`. -/
def splitLines (s : String) : List String := splitLinesAux s.data []

/-- JavaScript `lines.join('\n')`. -/
def joinLines (lines : List String) : String := String.intercalate "\n" lines

/-- Normalization of a (possibly negative) JavaScript array index against a
length, as performed by `Array.prototype.splice` and `slice`: a negative
index counts from the end (clamped at `0`). -/
def jsIndex (len : Nat) (i : Int) : Nat :=
  if i < 0 then ((len : Int) + i).toNat else i.toNat

/-- `lines.slice(0, j)` with a JavaScript (possibly negative) end index. -/
def jsSliceTo (xs : List String) (j : Int) : List String :=
  xs.take (jsIndex xs.length j)

/-- `lines.slice(j)` with a JavaScript (possibly negative) start index. -/
def jsSliceFrom (xs : List String) (j : Int) : List String :=
  xs.drop (jsIndex xs.length j)

/-- `lines.splice(i, 0, x)` for a non-negative index (JavaScript clamps an
index past the end to an append, which `take`/`drop` also do). -/
def spliceInsert (i : Nat) (x : String) (xs : List String) : List String :=
  xs.take i ++ [x] ++ xs.drop i

/-- `lines.splice(i, 0, x)` for an arbitrary (possibly negative) index. -/
def jsSpliceInsert (i : Int) (x : String) (xs : List String) : List String :=
  spliceInsert (jsIndex xs.length i) x xs

/-- `OutlineNode` of `src/util.ts` as consumed by the splice operations:
`text`, `indent`, `marker`, `line`, `endLine`.  The `children` arrays of
the source are represented separately by the parser's parent indices
(`RawNode`), which determine the same forest; no splice operation reads
`children`.  `line`/`endLine` are JavaScript numbers, modelled as `Int`. -/
structure OutlineNode where
  text : String
  indent : String
  marker : String
  line : Int
  endLine : Int
deriving DecidableEq, Repr

/-- The `subtreeEnd` loop of `src/mindmap-file.ts`, iterating with counter
`i` over the suffix of the line array: stop at the first line whose
leading-whitespace length is `≤ base` and that is not blank. -/
def subtreeEndFrom (base : Nat) (i : Nat) : List String → Nat
  | [] => i
  | l :: rest =>
    if strLen (leadingWs l) ≤ base && !isBlank l then i
    else subtreeEndFrom base (i + 1) rest

/-- `subtreeEnd(lines, start, indent)` of `src/mindmap-file.ts`
(for the in-bounds `start` values at which the source calls it). -/
def subtreeEnd (lines : List String) (start : Nat) (indent : String) : Nat :=
  subtreeEndFrom (strLen indent) (start + 1) (lines.drop (start + 1))

/-- `subtreeEnd` called with a possibly negative start index (the
`insertAsChild = false` branch of `moveSubtree` can pass one): when the
loop of the source would read `lines[i]` at a negative `i` it throws a
`TypeError`, modelled as `none`. -/
def subtreeEndI (lines : List String) (start : Int) (indent : String) :
    Option Nat :=
  if start + 1 < 0 then none
  else some (subtreeEndFrom (strLen indent) (start + 1).toNat
    (lines.drop (start + 1).toNat))

/-- `addChild` of `src/mindmap-file.ts` (pure core). -/
def addChild (fileText : String) (parent : OutlineNode) : String :=
  let lines := splitLines fileText
  if parent.line < 0 || parent.line ≥ (lines.length : Int) then fileText
  else
    let insertIndex := parent.line.toNat + 1
    let newLine := parent.indent ++ "\t" ++ "- "
    joinLines (spliceInsert insertIndex newLine lines)

/-- `addSibling` of `src/mindmap-file.ts` (pure core). -/
def addSibling (fileText : String) (node : OutlineNode) : String :=
  let lines := splitLines fileText
  if node.line < 0 || node.line ≥ (lines.length : Int) then fileText
  else
    let insertIndex := subtreeEnd lines node.line.toNat node.indent
    let newLine := node.indent ++ node.marker ++ " "
    joinLines (spliceInsert insertIndex newLine lines)

/-- `writeNode` of `src/mindmap-file.ts` (pure core): the edit-node splice. -/
def writeNode (fileText : String) (node : OutlineNode) (txt : String) :
    String :=
  let lines := splitLines fileText
  if node.line < 0 || node.line ≥ (lines.length : Int) then fileText
  else
    let newLine := node.indent ++ node.marker ++ " " ++ txt
    joinLines (lines.set node.line.toNat newLine)

/-- `deleteNode` of `src/mindmap-file.ts` (pure core). -/
def deleteNode (fileText : String) (node : OutlineNode) : String :=
  let lines := splitLines fileText
  if node.line < 0 || node.line ≥ (lines.length : Int) then fileText
  else
    let ln := node.line.toNat
    let e := subtreeEnd lines ln node.indent
    joinLines (lines.take ln ++ lines.drop e)

/-- The promotion loop of `deleteNodeKeepChildren`, acting on the lines
after the removed one: a line starting with `indent + '\t'` has that tab
removed (`line.replace(new RegExp('^' + indent + '\t'), indent)`); the
first other line whose leading-whitespace length is `≤ indent.length`
breaks the loop, leaving the rest untouched. -/
def promote (indent : String) : List String → List String
  | [] => []
  | l :: rest =>
    if strStartsWith l (indent ++ "\t") then
      (indent ++ strDrop l (strLen indent + 1)) :: promote indent rest
    else if strLen (leadingWs l) ≤ strLen indent then l :: rest
    else l :: promote indent rest

/-- `deleteNodeKeepChildren` of `src/mindmap-file.ts` (pure core). -/
def deleteNodeKeepChildren (fileText : String) (node : OutlineNode) :
    String :=
  let lines := splitLines fileText
  if node.line < 0 || node.line ≥ (lines.length : Int) then fileText
  else
    let ln := node.line.toNat
    let lines1 := lines.take ln ++ lines.drop (ln + 1)
    joinLines (lines1.take ln ++ promote node.indent (lines1.drop ln))

/-- Strip up to `n` leading tab characters:
`line.replace(new RegExp('^\t{0,n}'), '')`. -/
def dropLeadingTabs : Nat → List Char → List Char
  | 0, cs => cs
  | n + 1, cs =>
    match cs with
    | '\t' :: rest => dropLeadingTabs n rest
    | _ => cs

/-- `moveSubtree` of `src/mindmap-file.ts` (pure core).  `none` models the
`TypeError` the source throws when the sibling-insertion branch evaluates
`subtreeEnd` at a line index below `-1` (reachable only when the target
lies inside the source's span). -/
def moveSubtree (fileText : String) (source target : OutlineNode)
    (insertAsChild : Bool) : Option String :=
  let originalLines := splitLines fileText
  if source.line < 0 || source.line ≥ (originalLines.length : Int) ||
      target.line < 0 || target.line ≥ (originalLines.length : Int) then
    some fileText
  else if source.line = target.line then some fileText
  else
    let sLn := source.line.toNat
    let sourceEnd := subtreeEnd originalLines sLn source.indent
    let sourceLines := (originalLines.drop sLn).take (sourceEnd - sLn)
    let linesAfterRemoval :=
      originalLines.take sLn ++ originalLines.drop sourceEnd
    let adjustedTargetLine : Int :=
      if target.line > source.line then
        target.line - ((sourceEnd - sLn : Nat) : Int)
      else target.line
    let insertionPointOpt : Option Int :=
      if insertAsChild then some (adjustedTargetLine + 1)
      else (subtreeEndI linesAfterRemoval adjustedTargetLine
        target.indent).map (fun n => (n : Int))
    match insertionPointOpt with
    | none => none
    | some insertionPoint =>
      let newIndent :=
        if insertAsChild then target.indent ++ "\t" else target.indent
      let indentDiff : Int :=
        (strLen newIndent : Int) - (strLen source.indent : Int)
      let adjustedSourceLines := sourceLines.map (fun l =>
        if isBlank l then l
        else if indentDiff > 0 then tabs indentDiff.toNat ++ l
        else if indentDiff < 0 then
          String.mk (dropLeadingTabs (-indentDiff).toNat l.data)
        else l)
      some (joinLines
        (jsSliceTo linesAfterRemoval insertionPoint ++ adjustedSourceLines ++
          jsSliceFrom linesAfterRemoval insertionPoint))

/-- `addChildText` of `src/mindmap-file.ts` (pure core).  The insertion
index is `parent.endLine + 1`, spliced with JavaScript index
normalization. -/
def addChildText (fileText : String) (parent : OutlineNode) (text : String) :
    String :=
  let lines := splitLines fileText
  if parent.line < 0 || parent.line ≥ (lines.length : Int) then fileText
  else
    let newLine := parent.indent ++ "\t" ++ "- " ++ text
    joinLines (jsSpliceInsert (parent.endLine + 1) newLine lines)

/-! ### Outline parser (`parseOutline` of `src/util.ts`) -/

/-- Match one line against the outline grammar
`/^(\s*)([-*+]|\d+\.)\s+(.*)$/`, returning `(indent, marker, text)`.
The leading `(\s*)` is the maximal whitespace prefix (the marker characters
are not whitespace); after the marker at least one whitespace character is
required, and the greedy `\s+` leaves the remainder after the maximal
whitespace run to `(.*)`; since `.` cannot match a carriage return, a line
with a CR after its marker never matches. -/
def matchOutline (line : String) : Option (String × String × String) :=
  let cs := line.data
  let ws := cs.takeWhile isWs
  let rest := cs.drop ws.length
  let markerSplit : Option (List Char × List Char) :=
    match rest with
    | [] => none
    | c :: rs =>
      if c = '-' || c = '*' || c = '+' then some ([c], rs)
      else
        let ds := rest.takeWhile Char.isDigit
        if ds.isEmpty then none
        else
          match rest.drop ds.length with
          | '.' :: rs2 => some (ds ++ ['.'], rs2)
          | _ => none
  match markerSplit with
  | none => none
  | some (marker, rest2) =>
    match rest2 with
    | [] => none
    | c :: _ =>
      if isWs c then
        let body := rest2.dropWhile isWs
        if body.contains '\r' then none
        else some (String.mk ws, String.mk marker, String.mk body)
      else none

/-- The checkbox-stripping step: if the text matches `/^\[.\]\s/` the first
four characters are removed. -/
def stripCheckbox (t : String) : String :=
  match t.data with
  | '[' :: c :: ']' :: w :: rest =>
    if isWs w && c ≠ '\r' then String.mk rest else t
  | _ => t

/-- Normalized indent length:
`indentSpaces.replace(/\t/g, '    ').length` — each tab counts four, every
other character one. -/
def normLen (ws : String) : Nat :=
  ws.data.foldl (fun a c => a + (if c = '\t' then 4 else 1)) 0

/-- The ladder-search loop of `parseOutline`:
`while (level < indentLevels.length && indentLength > indentLevels[level]) level++` —
the resulting `level` is the position of the first ladder entry that is not
below `len` (the ladder length if there is none). -/
def findLevel : List Nat → Nat → Nat
  | [], _ => 0
  | e :: rest, len => if len > e then findLevel rest len + 1 else 0

/-- One parsed line: the `OutlineNode` fields the source fills in during
the scan, plus the computed nesting `level` and the index (into the list of
previously parsed lines) of the parent it was attached to (`none` for a
root).  The mutated `children` arrays of the source are recovered from
`parent`: the children of entry `i` are the entries pointing at `i`, in
order. -/
structure RawNode where
  text : String
  indent : String
  marker : String
  line : Nat
  level : Nat
  parent : Option Nat
deriving DecidableEq, Repr

/-- Parser state: parsed entries so far, the `levelStack` (as indices into
`raws`), and the `indentLevels` ladder. -/
structure ParseState where
  raws : List RawNode
  levelStack : List Nat
  indentLevels : List Nat
deriving Repr

/-- The body of the `parseOutline` line loop of `src/util.ts`. -/
def parseStep (st : ParseState) (i : Nat) (line : String) : ParseState :=
  match matchOutline line with
  | none => st
  | some (indentSpaces, marker, text0) =>
    let indentLength := normLen indentSpaces
    let level := findLevel st.indentLevels indentLength
    let levels1 :=
      if level ≥ st.indentLevels.length ||
          st.indentLevels[level]? ≠ some indentLength then
        st.indentLevels.insertIdx level indentLength
      else st.indentLevels
    let text := stripCheckbox text0
    let stack1 :=
      if level < st.levelStack.length then st.levelStack.take level
      else st.levelStack
    let levels2 :=
      if level < st.levelStack.length then levels1.take (level + 1)
      else levels1
    let curIdx := st.raws.length
    let parent : Option Nat :=
      if level = 0 then none
      else if level ≤ stack1.length then stack1[level - 1]?
      else none
    let stack2 := stack1 ++ List.replicate (level + 1 - stack1.length) curIdx
    { raws := st.raws ++ [⟨text, indentSpaces, marker, i, level, parent⟩],
      levelStack := stack2, indentLevels := levels2 }

/-- `parseOutline` of `src/util.ts`, flat form: the parsed entries in
document order with their levels and parent indices. -/
def parseRaw (markdown : String) : List RawNode :=
  ((splitLines markdown).enum.foldl (fun st p => parseStep st p.1 p.2)
    ⟨[], [], []⟩).raws

/-! ### Command history (`src/command-history.ts`) -/

/-- The `nodeInfo` / `targetInfo` snapshots of a command. -/
structure NodeInfo where
  line : Int
  text : String
  indent : String
  marker : String
deriving DecidableEq, Repr

/-- `MindmapCommand` of `src/command-history.ts`.  The `type` union of
string literals is modelled as a `String`; the untyped optional `metadata`
field carries no behaviour and is omitted. -/
structure MindmapCommand where
  type : String
  timestamp : Int
  beforeState : String
  afterState : String
  nodeInfo : NodeInfo
  targetInfo : Option NodeInfo := none
deriving DecidableEq, Repr

/-- `maxHistorySize` — limit to 20 commands. -/
def maxHistorySize : Nat := 20

/-- `maxContentLength` — limit content size per command. -/
def maxContentLength : Nat := 50000

/-- Mutable state of a `CommandHistory` instance. -/
structure CommandHistory where
  history : List MindmapCommand
  currentIndex : Int
deriving DecidableEq, Repr

/-- The empty history (`history = []`, `currentIndex = -1`). -/
def CommandHistory.empty : CommandHistory := ⟨[], -1⟩

/-- Content truncation in `executeCommand`. -/
def truncateContent (s : String) : String :=
  if strLen s > maxContentLength then
    strTake s maxContentLength ++ "...[truncated]"
  else s

/-- The `truncatedCommand` built at the top of `executeCommand`. -/
def truncateCommand (c : MindmapCommand) : MindmapCommand :=
  { c with beforeState := truncateContent c.beforeState,
           afterState := truncateContent c.afterState }

/-- `executeCommand` of `src/command-history.ts`. -/
def executeCommand (s : CommandHistory) (command : MindmapCommand) :
    CommandHistory :=
  let tcmd := truncateCommand command
  let h1 := s.history.take (jsIndex s.history.length (s.currentIndex + 1))
  let h2 := h1 ++ [tcmd]
  let idx2 : Int := (h2.length : Int) - 1
  if h2.length > maxHistorySize then
    let removeCount := h2.length - maxHistorySize
    { history := h2.drop removeCount,
      currentIndex := idx2 - (removeCount : Int) }
  else { history := h2, currentIndex := idx2 }

/-- `canUndo`. -/
def canUndo (s : CommandHistory) : Bool := s.currentIndex ≥ 0

/-- `canRedo`. -/
def canRedo (s : CommandHistory) : Bool :=
  s.currentIndex < (s.history.length : Int) - 1

/-- `undo(file)`: the file write is abstracted by `writeOk`; the returned
pair is the new history state and the `string | null` result.  The outer
`none` models the `TypeError` thrown when `history[currentIndex]` is
`undefined` (impossible in reachable states). -/
def undo (s : CommandHistory) (writeOk : Bool) :
    Option (CommandHistory × Option String) :=
  if !canUndo s then some (s, none)
  else
    match s.history[s.currentIndex.toNat]? with
    | none => none
    | some command =>
      if writeOk then
        some ({ s with currentIndex := s.currentIndex - 1 },
          some command.beforeState)
      else some (s, none)

/-- `redo(file)`, analogous to `undo`. -/
def redo (s : CommandHistory) (writeOk : Bool) :
    Option (CommandHistory × Option String) :=
  if !canRedo s then some (s, none)
  else if s.currentIndex + 1 < 0 then none
  else
    match s.history[(s.currentIndex + 1).toNat]? with
    | none => none
    | some command =>
      if writeOk then
        some ({ s with currentIndex := s.currentIndex + 1 },
          some command.afterState)
      else some (s, none)

/-! ### Infrastructure lemmas -/

theorem subtreeEndFrom_eq (base : Nat) :
    ∀ (L : List String) (i : Nat),
      subtreeEndFrom base i L =
        i + L.findIdx (fun l => strLen (leadingWs l) ≤ base && !isBlank l)
  | [], i => by simp [subtreeEndFrom]
  | l :: rest, i => by
    rw [subtreeEndFrom, List.findIdx_cons]
    cases h : (strLen (leadingWs l) ≤ base && !isBlank l) with
    | true => simp [h]
    | false =>
      rw [if_neg (by simp [h]), subtreeEndFrom_eq base rest (i + 1)]
      simp only [h, cond_false]
      omega

theorem listIsPrefix_iff (p : List Char) :
    ∀ s : List Char, listIsPrefix p s = true ↔ ∃ t, s = p ++ t := by
  induction p with
  | nil => intro s; simp [listIsPrefix]
  | cons a as ih =>
    intro s
    cases s with
    | nil => simp [listIsPrefix]
    | cons b bs =>
      rw [listIsPrefix]
      simp only [Bool.and_eq_true, decide_eq_true_eq, ih bs]
      constructor
      · rintro ⟨rfl, t, rfl⟩; exact ⟨t, rfl⟩
      · rintro ⟨t, ht⟩
        injection ht with h1 h2
        exact ⟨h1.symm, t, h2⟩

theorem takeWhile_append_of_all (p : List Char)
    (hp : p.all isWs = true) (t : List Char) :
    (p ++ t).takeWhile isWs = p ++ t.takeWhile isWs := by
  induction p with
  | nil => simp
  | cons c cs ih =>
    simp only [List.all_cons, Bool.and_eq_true] at hp
    simp [List.takeWhile, hp.1, ih hp.2]

theorem leadingWs_len_of_startsWith (l w : String)
    (hsw : strStartsWith l (w ++ "\t") = true)
    (hws : w.data.all isWs = true) :
    strLen w + 1 ≤ strLen (leadingWs l) := by
  rw [strStartsWith, listIsPrefix_iff] at hsw
  obtain ⟨t, ht⟩ := hsw
  have hdata : (w ++ "\t").data = w.data ++ ['\t'] := by
    simp [String.data_append]
  rw [hdata] at ht
  have hall : (w.data ++ ['\t']).all isWs = true := by
    simp only [List.all_append, Bool.and_eq_true]
    exact ⟨hws, by decide⟩
  rw [leadingWs, strLen, strLen, ht, takeWhile_append_of_all _ hall]
  simp

theorem promote_eq (indent : String) (hws : indent.data.all isWs = true) :
    ∀ L : List String,
      promote indent L =
        (L.take (L.findIdx
            (fun l => strLen (leadingWs l) ≤ strLen indent))).map
          (fun l => if strStartsWith l (indent ++ "\t") then
              indent ++ strDrop l (strLen indent + 1) else l) ++
        L.drop (L.findIdx (fun l => strLen (leadingWs l) ≤ strLen indent))
  | [] => by simp [promote]
  | l :: rest => by
    rw [promote, List.findIdx_cons]
    by_cases hsw : strStartsWith l (indent ++ "\t") = true
    · have hdeep : (strLen (leadingWs l) ≤ strLen indent) = False := by
        have := leadingWs_len_of_startsWith l indent hsw hws
        simp only [eq_iff_iff, iff_false]
        omega
      simp only [hsw, if_true, hdeep, decide_False, cond_false]
      rw [promote_eq indent hws rest]
      simp [hsw]
    · simp only [Bool.not_eq_true] at hsw
      simp only [hsw, Bool.false_eq_true, if_false]
      by_cases hle : strLen (leadingWs l) ≤ strLen indent
      · simp [hle]
      · simp only [hle, if_false, decide_False, cond_false]
        rw [promote_eq indent hws rest]
        simp [hsw, hle]

theorem findLevel_eq_findIdx :
    ∀ (L : List Nat) (len : Nat),
      findLevel L len = L.findIdx (fun e => len ≤ e)
  | [], _ => by simp [findLevel]
  | e :: rest, len => by
    rw [findLevel, List.findIdx_cons]
    by_cases h : len > e
    · have : (len ≤ e) = False := by simp only [eq_iff_iff, iff_false]; omega
      simp [h, this, findLevel_eq_findIdx rest len]
    · have : len ≤ e := by omega
      simp [h, this]

theorem findLevel_mem_iff (L : List Nat) (len : Nat)
    (hs : L.Pairwise (· < ·)) :
    len ∈ L ↔ L[findLevel L len]? = some len := by
  induction L with
  | nil => simp [findLevel]
  | cons e rest ih =>
    rw [List.pairwise_cons] at hs
    rw [findLevel]
    by_cases h : len > e
    · have hne : len ≠ e := by omega
      simp only [if_pos h, List.mem_cons, hne, false_or,
        List.getElem?_cons_succ]
      exact ih hs.2
    · have hle : len ≤ e := by omega
      simp only [if_neg h, List.getElem?_cons_zero]
      constructor
      · intro hmem
        rcases List.mem_cons.mp hmem with rfl | hmem2
        · rfl
        · have := hs.1 len hmem2
          omega
      · intro hsome
        injection hsome with h2
        simp [h2]

/-! ### Claims -/

/-- C1: the spec requires `move-subtree` to return the input unchanged when
the target lies within the source's subtree span.  The current
`moveSubtree` only rejects out-of-bounds lines and `source.line ==
target.line`; with document `"- A\n\t- B"`, source `A` (line 0) and target
`B` (line 1, a descendant of `A`), it instead removes the whole source span
(which contains the target) and re-inserts it re-indented, for both values
of `insertAsChild`.  The claim — matching the unused
`validateMoveOperation` helper and the spec — is violated by the code. -/
theorem moveSubtree_into_descendant_not_noop :
    moveSubtree "- A\n\t- B" ⟨"A", "", "-", 0, 1⟩ ⟨"B", "\t", "-", 1, 1⟩ true
        = some "\t\t- A\n\t\t\t- B" ∧
    moveSubtree "- A\n\t- B" ⟨"A", "", "-", 0, 1⟩ ⟨"B", "\t", "-", 1, 1⟩ false
        = some "\t- A\n\t\t- B" ∧
    ("\t\t- A\n\t\t\t- B" : String) ≠ "- A\n\t- B" ∧
    ("\t- A\n\t\t- B" : String) ≠ "- A\n\t- B" := by
  refine ⟨by decide, by decide, by decide, by decide⟩

/-- C2 counterexample: on `"- A\n- B\n\t- C"`,
`moveSubtree(A, B, insertAsChild = true)` does not produce the claimed
`"- B\n\t- C\n\t- A"`: the insertion point for a child move is
`adjustedTargetLine + 1`, immediately after the target line and before the
target's existing children. -/
theorem moveSubtree_example_not_after_existing_children :
    moveSubtree "- A\n- B\n\t- C" ⟨"A", "", "-", 0, 0⟩ ⟨"B", "", "-", 1, 2⟩
        true ≠ some "- B\n\t- C\n\t- A" := by
  decide

/-- C2 amended: `move-subtree(A, B, insertAsChild = true)` on
`"- A\n- B\n\t- C"` yields `"- B\n\t- A\n\t- C"` — `A` becomes a child of
`B` placed immediately after `B`'s line, *before* `B`'s existing child
`C`. -/
theorem moveSubtree_example_first_child :
    moveSubtree "- A\n- B\n\t- C" ⟨"A", "", "-", 0, 0⟩ ⟨"B", "", "-", 1, 2⟩
        true = some "- B\n\t- A\n\t- C" := by
  decide

/-- C3 counterexample: `addChildText` does not flatten embedded newlines:
with parent `A` of `"- A"` and text `"a\nb"` the inserted entry is the text
verbatim, producing `"- A\n\t- a\nb"` (two lines of payload) rather than
the claimed flattened `"- A\n\t- a b"`. -/
theorem addChildText_embedded_newline_not_flattened :
    addChildText "- A" ⟨"A", "", "-", 0, 0⟩ "a\nb" = "- A\n\t- a\nb" ∧
    ("- A\n\t- a\nb" : String) ≠ "- A\n\t- a b" := by
  exact ⟨by decide, by decide⟩

/-- The insertion shape `addChildText` actually produces (used by the C3
amended claim and its witness): one new entry at JavaScript-normalized
index `parent.endLine + 1`, indented one tab deeper than `parent`, with
marker `-` and the given text verbatim; all other lines unchanged. -/
def addChildTextSpec (txt : String) (parent : OutlineNode) (text : String) :
    Prop :=
  addChildText txt parent text =
    joinLines ((splitLines txt).take
        (jsIndex (splitLines txt).length (parent.endLine + 1)) ++
      [parent.indent ++ "\t" ++ "- " ++ text] ++
      (splitLines txt).drop
        (jsIndex (splitLines txt).length (parent.endLine + 1)))

/-- C3 amended: for every document, in-bounds parent and text,
`add-child-text` inserts exactly one new line at index
`parent.endLine + 1` (normalized as a JavaScript splice index), whose
indent is `parent.indent` plus one tab and whose content is `"- "`
followed by the given text *verbatim* (embedded newlines are not
collapsed); all other lines are unchanged. -/
theorem addChildText_inserts_verbatim (txt : String) (parent : OutlineNode)
    (text : String) (h0 : 0 ≤ parent.line)
    (h1 : parent.line < ((splitLines txt).length : Int)) :
    addChildTextSpec txt parent text := by
  rw [addChildTextSpec, addChildText,
    if_neg (by simp only [Bool.or_eq_true, decide_eq_true_eq, not_or]; omega)]
  rfl

/-- Witness for the C3 amended claim at a concrete in-bounds input. -/
theorem addChildText_inserts_verbatim_witness :
    addChildTextSpec "- A\n\t- B" ⟨"A", "", "-", 0, 1⟩ "x" :=
  addChildText_inserts_verbatim "- A\n\t- B" ⟨"A", "", "-", 0, 1⟩ "x"
    (by decide) (by decide)

/-- C4: every splice operation returns the input text unchanged when the
referenced node's `line` is negative or not below the current line count
(for `moveSubtree`: when either `source.line` or `target.line` is out of
bounds); the bounds check happens before any line indexing, so the
operation is a total function returning the input (for `moveSubtree`,
`some` of the input: no exception). -/
theorem splice_ops_bounds_check :
    (∀ (txt : String) (p : OutlineNode),
      p.line < 0 ∨ ((splitLines txt).length : Int) ≤ p.line →
        addChild txt p = txt) ∧
    (∀ (txt : String) (n : OutlineNode),
      n.line < 0 ∨ ((splitLines txt).length : Int) ≤ n.line →
        addSibling txt n = txt) ∧
    (∀ (txt t : String) (n : OutlineNode),
      n.line < 0 ∨ ((splitLines txt).length : Int) ≤ n.line →
        writeNode txt n t = txt) ∧
    (∀ (txt : String) (n : OutlineNode),
      n.line < 0 ∨ ((splitLines txt).length : Int) ≤ n.line →
        deleteNode txt n = txt) ∧
    (∀ (txt : String) (n : OutlineNode),
      n.line < 0 ∨ ((splitLines txt).length : Int) ≤ n.line →
        deleteNodeKeepChildren txt n = txt) ∧
    (∀ (txt : String) (s t : OutlineNode) (b : Bool),
      s.line < 0 ∨ ((splitLines txt).length : Int) ≤ s.line ∨
        t.line < 0 ∨ ((splitLines txt).length : Int) ≤ t.line →
          moveSubtree txt s t b = some txt) ∧
    (∀ (txt tx : String) (p : OutlineNode),
      p.line < 0 ∨ ((splitLines txt).length : Int) ≤ p.line →
        addChildText txt p tx = txt) := by
  refine ⟨?_, ?_, ?_, ?_, ?_, ?_, ?_⟩
  · intro txt p h
    rw [addChild, if_pos]
    simp only [Bool.or_eq_true, decide_eq_true_eq]
    omega
  · intro txt n h
    rw [addSibling, if_pos]
    simp only [Bool.or_eq_true, decide_eq_true_eq]
    omega
  · intro txt t n h
    rw [writeNode, if_pos]
    simp only [Bool.or_eq_true, decide_eq_true_eq]
    omega
  · intro txt n h
    rw [deleteNode, if_pos]
    simp only [Bool.or_eq_true, decide_eq_true_eq]
    omega
  · intro txt n h
    rw [deleteNodeKeepChildren, if_pos]
    simp only [Bool.or_eq_true, decide_eq_true_eq]
    omega
  · intro txt s t b h
    rw [moveSubtree, if_pos]
    simp only [Bool.or_eq_true, decide_eq_true_eq]
    omega
  · intro txt tx p h
    rw [addChildText, if_pos]
    simp only [Bool.or_eq_true, decide_eq_true_eq]
    omega

/-- Witness for C4: each operation at a stale node reference (line 5 of a
two-line document, and a negative line) returns the input unchanged. -/
theorem splice_ops_bounds_check_witness :
    addChild "- A\n\t- B" ⟨"X", "", "-", 5, 5⟩ = "- A\n\t- B" ∧
    addSibling "- A\n\t- B" ⟨"X", "", "-", 5, 5⟩ = "- A\n\t- B" ∧
    writeNode "- A\n\t- B" ⟨"X", "", "-", 5, 5⟩ "t" = "- A\n\t- B" ∧
    deleteNode "- A\n\t- B" ⟨"X", "", "-", 5, 5⟩ = "- A\n\t- B" ∧
    deleteNodeKeepChildren "- A\n\t- B" ⟨"X", "", "-", -1, 0⟩ = "- A\n\t- B" ∧
    moveSubtree "- A\n\t- B" ⟨"X", "", "-", 0, 0⟩ ⟨"Y", "", "-", 5, 5⟩ true
        = some "- A\n\t- B" ∧
    addChildText "- A\n\t- B" ⟨"X", "", "-", 5, 5⟩ "t" = "- A\n\t- B" :=
  ⟨splice_ops_bounds_check.1 _ _ (by decide),
   splice_ops_bounds_check.2.1 _ _ (by decide),
   splice_ops_bounds_check.2.2.1 _ _ _ (by decide),
   splice_ops_bounds_check.2.2.2.1 _ _ (by decide),
   splice_ops_bounds_check.2.2.2.2.1 _ _ (by decide),
   splice_ops_bounds_check.2.2.2.2.2.1 _ _ _ _ (by decide),
   splice_ops_bounds_check.2.2.2.2.2.2 _ _ _ (by decide)⟩

/-- The insertion shape of `add-sibling` as the spec words it (used by the
C5 claim and its witness): one new line `indent ++ marker ++ " "` at the
subtree-span end boundary — the index of the first subsequent line that is
non-blank and whose leading-whitespace length is at most the node's indent
length (the document end if there is none); all other lines unchanged. -/
def addSiblingSpec (txt : String) (node : OutlineNode) : Prop :=
  addSibling txt node =
    joinLines ((splitLines txt).take (node.line.toNat + 1 +
        ((splitLines txt).drop (node.line.toNat + 1)).findIdx
          (fun l => strLen (leadingWs l) ≤ strLen node.indent &&
            !isBlank l)) ++
      [node.indent ++ node.marker ++ " "] ++
      (splitLines txt).drop (node.line.toNat + 1 +
        ((splitLines txt).drop (node.line.toNat + 1)).findIdx
          (fun l => strLen (leadingWs l) ≤ strLen node.indent &&
            !isBlank l)))

/-- C5: for every document and in-bounds node, `add-sibling` inserts
exactly one new line `node.indent ++ node.marker ++ " "` at the
subtree-span end boundary of the node, leaving all other lines unchanged;
in particular, on `"- A\n\t- B\n\t- C\n- D"` the sibling of `A` is inserted
immediately before `"- D"`. -/
theorem addSibling_at_subtree_boundary :
    (∀ (txt : String) (node : OutlineNode), 0 ≤ node.line →
      node.line < ((splitLines txt).length : Int) → addSiblingSpec txt node) ∧
    addSibling "- A\n\t- B\n\t- C\n- D" ⟨"A", "", "-", 0, 2⟩ =
      "- A\n\t- B\n\t- C\n- \n- D" := by
  constructor
  · intro txt node h0 h1
    rw [addSiblingSpec, addSibling,
      if_neg (by
        simp only [Bool.or_eq_true, decide_eq_true_eq, not_or]; omega)]
    rw [subtreeEnd, subtreeEndFrom_eq]
    rfl
  · decide

/-- Witness for C5 at a concrete in-bounds input. -/
theorem addSibling_at_subtree_boundary_witness :
    addSiblingSpec "- A\n\t- B\n- C" ⟨"A", "", "-", 0, 1⟩ :=
  addSibling_at_subtree_boundary.1 "- A\n\t- B\n- C" ⟨"A", "", "-", 0, 1⟩
    (by decide) (by decide)


/-- The transformation `delete-node-keep-children` performs, as the spec
words it (used by the C6 claim and its witness): line `node.line` is
removed; within the promotion region — the following lines up to (not
including) the first one whose leading-whitespace length is not greater
than the node's indent length — every line starting with
`node.indent ++ "\t"` loses exactly that one tab; everything outside the
region is unchanged. -/
def deleteKeepChildrenSpec (txt : String) (node : OutlineNode) : Prop :=
  deleteNodeKeepChildren txt node =
    joinLines ((splitLines txt).take node.line.toNat ++
      (((splitLines txt).drop (node.line.toNat + 1)).take
          (((splitLines txt).drop (node.line.toNat + 1)).findIdx
            (fun l => strLen (leadingWs l) ≤ strLen node.indent))).map
        (fun l => if strStartsWith l (node.indent ++ "\t") then
            node.indent ++ strDrop l (strLen node.indent + 1) else l) ++
      ((splitLines txt).drop (node.line.toNat + 1)).drop
        (((splitLines txt).drop (node.line.toNat + 1)).findIdx
          (fun l => strLen (leadingWs l) ≤ strLen node.indent)))

/-- C6: for every document and in-bounds node whose `indent` is whitespace
(as every parsed node's is), `delete-node-keep-children` removes exactly
the node's line, strips one tab from every following line starting with
`node.indent` plus a tab, stops promoting at the first line whose
indentation is not deeper than the node's, and leaves all other lines
unchanged; in particular `"- A\n\t- B\n\t\t- C"` becomes `"- B\n\t- C"`. -/
theorem deleteNodeKeepChildren_promotes :
    (∀ (txt : String) (node : OutlineNode), 0 ≤ node.line →
      node.line < ((splitLines txt).length : Int) →
      node.indent.data.all isWs = true → deleteKeepChildrenSpec txt node) ∧
    deleteNodeKeepChildren "- A\n\t- B\n\t\t- C" ⟨"A", "", "-", 0, 2⟩ =
      "- B\n\t- C" := by
  constructor
  · intro txt node h0 h1 hws
    have hlt : node.line.toNat < (splitLines txt).length := by omega
    have htk : ((splitLines txt).take node.line.toNat).length =
        node.line.toNat :=
      List.length_take_of_le (Nat.le_of_lt hlt)
    have e1 : ((splitLines txt).take node.line.toNat ++
        (splitLines txt).drop (node.line.toNat + 1)).take node.line.toNat =
        (splitLines txt).take node.line.toNat := by
      rw [List.take_append_of_le_length (le_of_eq htk.symm), List.take_take,
        Nat.min_self]
    have e2 : ((splitLines txt).take node.line.toNat ++
        (splitLines txt).drop (node.line.toNat + 1)).drop node.line.toNat =
        (splitLines txt).drop (node.line.toNat + 1) := by
      rw [List.drop_append_of_le_length (le_of_eq htk.symm),
        List.drop_eq_nil_of_le (le_of_eq htk), List.nil_append]
    rw [deleteKeepChildrenSpec, deleteNodeKeepChildren,
      if_neg (by
        simp only [Bool.or_eq_true, decide_eq_true_eq, not_or]; omega)]
    show joinLines
        (((splitLines txt).take node.line.toNat ++
            (splitLines txt).drop (node.line.toNat + 1)).take
          node.line.toNat ++
        promote node.indent
          (((splitLines txt).take node.line.toNat ++
            (splitLines txt).drop (node.line.toNat + 1)).drop
            node.line.toNat)) = _
    rw [e1, e2, promote_eq node.indent hws, ← List.append_assoc]
  · decide

/-- Witness for C6 at a concrete in-bounds input. -/
theorem deleteNodeKeepChildren_promotes_witness :
    deleteKeepChildrenSpec "- A\n\t- B\n- C" ⟨"A", "", "-", 0, 1⟩ :=
  deleteNodeKeepChildren_promotes.1 "- A\n\t- B\n- C" ⟨"A", "", "-", 0, 1⟩
    (by decide) (by decide) (by decide)

/-- The insertion shape of `add-child` (used by the C7 claim and its
witness): one new line at index `parent.line + 1`, whose content is
`parent.indent` plus one tab followed by `"- "`; all other lines
unchanged — the new node is always the first child. -/
def addChildSpec (txt : String) (parent : OutlineNode) : Prop :=
  addChild txt parent =
    joinLines ((splitLines txt).take (parent.line.toNat + 1) ++
      [parent.indent ++ "\t" ++ "- "] ++
      (splitLines txt).drop (parent.line.toNat + 1))

/-- C7: for every document and in-bounds parent, `add-child` inserts
exactly one new line immediately after `parent.line`, indented
`parent.indent` plus one tab, with marker `-`, leaving all other lines
unchanged; in particular a parent with indent `"\t"` gets a new line with
indent `"\t\t"` and marker `-`. -/
theorem addChild_first_child :
    (∀ (txt : String) (parent : OutlineNode), 0 ≤ parent.line →
      parent.line < ((splitLines txt).length : Int) →
        addChildSpec txt parent) ∧
    addChild "- X\n\t- Y" ⟨"Y", "\t", "-", 1, 1⟩ = "- X\n\t- Y\n\t\t- " := by
  constructor
  · intro txt parent h0 h1
    rw [addChildSpec, addChild,
      if_neg (by
        simp only [Bool.or_eq_true, decide_eq_true_eq, not_or]; omega)]
    rfl
  · decide

/-- Witness for C7 at a concrete in-bounds input. -/
theorem addChild_first_child_witness :
    addChildSpec "- X\n\t- Y" ⟨"Y", "\t", "-", 1, 1⟩ :=
  addChild_first_child.1 "- X\n\t- Y" ⟨"Y", "\t", "-", 1, 1⟩
    (by decide) (by decide)

/-- The effect of one `executeCommand` call on a history state whose
cursor is valid (used by the C8 claim and its witness): the redo tail past
the cursor is discarded, the (content-truncated) command is appended, at
most the newest `maxHistorySize` entries are retained (oldest evicted),
and the cursor points at the newest entry, so `canUndo` holds. -/
def execCommandSpec (s : CommandHistory) (cmd : MindmapCommand) : Prop :=
  (executeCommand s cmd).history =
    (s.history.take (s.currentIndex + 1).toNat ++ [truncateCommand cmd]).drop
      ((s.history.take (s.currentIndex + 1).toNat ++
        [truncateCommand cmd]).length - maxHistorySize) ∧
  (executeCommand s cmd).currentIndex =
    ((executeCommand s cmd).history.length : Int) - 1 ∧
  (executeCommand s cmd).history.length ≤ maxHistorySize ∧
  canUndo (executeCommand s cmd) = true

set_option maxRecDepth 4000 in
/-- C8: the history is a bounded stack-with-cursor — `executeCommand`
discards the redo tail, appends, advances the cursor to the newest entry,
and never retains more than the cap of 20 commands (oldest evicted, cursor
adjusted); executing 25 distinct commands from an empty history leaves
exactly the last 20, with `canUndo()` true and the first 5 commands gone. -/
theorem executeCommand_bounded_stack :
    (∀ (s : CommandHistory) (cmd : MindmapCommand), -1 ≤ s.currentIndex →
      execCommandSpec s cmd) ∧
    (((List.range 25).map (fun i =>
        ({ type := "edit-node", timestamp := (i : Int),
           beforeState := "b" ++ toString i, afterState := "a" ++ toString i,
           nodeInfo := ⟨0, "", "", "-"⟩ } : MindmapCommand))).foldl
      executeCommand CommandHistory.empty).history.length = 20 ∧
    canUndo (((List.range 25).map (fun i =>
        ({ type := "edit-node", timestamp := (i : Int),
           beforeState := "b" ++ toString i, afterState := "a" ++ toString i,
           nodeInfo := ⟨0, "", "", "-"⟩ } : MindmapCommand))).foldl
      executeCommand CommandHistory.empty) = true ∧
    (((List.range 25).map (fun i =>
        ({ type := "edit-node", timestamp := (i : Int),
           beforeState := "b" ++ toString i, afterState := "a" ++ toString i,
           nodeInfo := ⟨0, "", "", "-"⟩ } : MindmapCommand))).foldl
      executeCommand CommandHistory.empty).history =
      ((List.range 25).map (fun i =>
        ({ type := "edit-node", timestamp := (i : Int),
           beforeState := "b" ++ toString i, afterState := "a" ++ toString i,
           nodeInfo := ⟨0, "", "", "-"⟩ } : MindmapCommand))).drop 5 ∧
    (((List.range 25).map (fun i =>
        ({ type := "edit-node", timestamp := (i : Int),
           beforeState := "b" ++ toString i, afterState := "a" ++ toString i,
           nodeInfo := ⟨0, "", "", "-"⟩ } : MindmapCommand))).take 5).all
      (fun c => !((((List.range 25).map (fun i =>
        ({ type := "edit-node", timestamp := (i : Int),
           beforeState := "b" ++ toString i, afterState := "a" ++ toString i,
           nodeInfo := ⟨0, "", "", "-"⟩ } : MindmapCommand))).foldl
      executeCommand CommandHistory.empty).history.contains c)) = true := by
  refine ⟨?_, by decide, by decide, by decide, by decide⟩
  intro s cmd hc
  have hidx : jsIndex s.history.length (s.currentIndex + 1) =
      (s.currentIndex + 1).toNat := by
    rw [jsIndex, if_neg (by omega)]
  rw [execCommandSpec, executeCommand]
  simp only [hidx]
  set mid := s.history.take (s.currentIndex + 1).toNat ++ [truncateCommand cmd]
    with hmid
  have hmidlen : 1 ≤ mid.length := by
    rw [hmid]; simp
  by_cases hcap : mid.length > maxHistorySize
  · rw [if_pos hcap]
    have hdlen : (mid.drop (mid.length - maxHistorySize)).length =
        maxHistorySize := by
      rw [List.length_drop]; omega
    refine ⟨rfl, ?_, ?_, ?_⟩
    · rw [hdlen]
      have : (maxHistorySize : Int) ≤ (mid.length : Int) := by
        exact_mod_cast Nat.le_of_lt hcap
      push_cast
      omega
    · rw [hdlen]
    · rw [canUndo]
      simp only [decide_eq_true_eq, ge_iff_le]
      have : (maxHistorySize : Int) ≤ (mid.length : Int) := by
        exact_mod_cast Nat.le_of_lt hcap
      rw [maxHistorySize] at *
      omega
  · rw [if_neg hcap]
    have hz : mid.length - maxHistorySize = 0 := by omega
    refine ⟨by rw [hz, List.drop_zero], by simp, by simpa using by omega, ?_⟩
    rw [canUndo]
    simp only [decide_eq_true_eq, ge_iff_le]
    have : (1 : Int) ≤ (mid.length : Int) := by exact_mod_cast hmidlen
    omega

/-- Witness for C8: one `executeCommand` on the empty history satisfies the
stack-with-cursor specification. -/
theorem executeCommand_bounded_stack_witness :
    execCommandSpec CommandHistory.empty
      { type := "edit-node", timestamp := 0, beforeState := "b",
        afterState := "a", nodeInfo := ⟨0, "", "", "-"⟩ } :=
  executeCommand_bounded_stack.1 CommandHistory.empty
    { type := "edit-node", timestamp := 0, beforeState := "b",
      afterState := "a", nodeInfo := ⟨0, "", "", "-"⟩ } (by decide)

/-- C9: `undo` writes `beforeState` and decrements the cursor; `redo`
writes `afterState` and increments it; on a write failure the cursor is
restored to its pre-attempt position and `null` is returned with the
history state unchanged; `undo` with `canUndo()` false and `redo` with
`canRedo()` false return `null` without modifying anything.  (The redo
clauses carry the reachable-state invariant `-1 ≤ currentIndex`.) -/
theorem undo_redo_cursor_and_failure :
    (∀ (s : CommandHistory) (ok : Bool), canUndo s = false →
      undo s ok = some (s, none)) ∧
    (∀ (s : CommandHistory) (cmd : MindmapCommand), canUndo s = true →
      s.history[s.currentIndex.toNat]? = some cmd →
        undo s true = some ({ s with currentIndex := s.currentIndex - 1 },
          some cmd.beforeState)) ∧
    (∀ (s : CommandHistory) (cmd : MindmapCommand), canUndo s = true →
      s.history[s.currentIndex.toNat]? = some cmd →
        undo s false = some (s, none)) ∧
    (∀ (s : CommandHistory) (ok : Bool), canRedo s = false →
      redo s ok = some (s, none)) ∧
    (∀ (s : CommandHistory) (cmd : MindmapCommand), -1 ≤ s.currentIndex →
      canRedo s = true → s.history[(s.currentIndex + 1).toNat]? = some cmd →
        redo s true = some ({ s with currentIndex := s.currentIndex + 1 },
          some cmd.afterState)) ∧
    (∀ (s : CommandHistory) (cmd : MindmapCommand), -1 ≤ s.currentIndex →
      canRedo s = true → s.history[(s.currentIndex + 1).toNat]? = some cmd →
        redo s false = some (s, none)) := by
  refine ⟨?_, ?_, ?_, ?_, ?_, ?_⟩
  · intro s ok h
    rw [undo, if_pos (by rw [h]; rfl)]
  · intro s cmd h hget
    rw [undo, if_neg (by rw [h]; simp), hget]
    rfl
  · intro s cmd h hget
    rw [undo, if_neg (by rw [h]; simp), hget]
    rfl
  · intro s ok h
    rw [redo, if_pos (by rw [h]; rfl)]
  · intro s cmd hinv h hget
    rw [redo, if_neg (by rw [h]; simp), if_neg (by omega), hget]
    rfl
  · intro s cmd hinv h hget
    rw [redo, if_neg (by rw [h]; simp), if_neg (by omega), hget]
    rfl

/-- Witness for C9: a one-command history with the cursor on it undoes to
`beforeState` with the cursor decremented, and a failed write leaves the
state unchanged. -/
theorem undo_redo_cursor_and_failure_witness :
    undo ⟨[(⟨"edit-node", 0, "b", "a", ⟨0, "", "", "-"⟩, none⟩ : MindmapCommand)], 0⟩ true =
      some (⟨[(⟨"edit-node", 0, "b", "a", ⟨0, "", "", "-"⟩, none⟩ : MindmapCommand)], (0 : Int) - 1⟩,
        some "b") ∧
    undo ⟨[(⟨"edit-node", 0, "b", "a", ⟨0, "", "", "-"⟩, none⟩ : MindmapCommand)], 0⟩ false =
      some (⟨[(⟨"edit-node", 0, "b", "a", ⟨0, "", "", "-"⟩, none⟩ : MindmapCommand)], 0⟩, none) ∧
    redo ⟨[(⟨"edit-node", 0, "b", "a", ⟨0, "", "", "-"⟩, none⟩ : MindmapCommand)], -1⟩ true =
      some (⟨[(⟨"edit-node", 0, "b", "a", ⟨0, "", "", "-"⟩, none⟩ : MindmapCommand)], (-1 : Int) + 1⟩,
        some "a") :=
  ⟨undo_redo_cursor_and_failure.2.1
     ⟨[⟨"edit-node", 0, "b", "a", ⟨0, "", "", "-"⟩, none⟩], 0⟩
     ⟨"edit-node", 0, "b", "a", ⟨0, "", "", "-"⟩, none⟩ (by decide)
     (by decide),
   undo_redo_cursor_and_failure.2.2.1
     ⟨[⟨"edit-node", 0, "b", "a", ⟨0, "", "", "-"⟩, none⟩], 0⟩
     ⟨"edit-node", 0, "b", "a", ⟨0, "", "", "-"⟩, none⟩ (by decide)
     (by decide),
   undo_redo_cursor_and_failure.2.2.2.2.1
     ⟨[⟨"edit-node", 0, "b", "a", ⟨0, "", "", "-"⟩, none⟩], -1⟩
     ⟨"edit-node", 0, "b", "a", ⟨0, "", "", "-"⟩, none⟩ (by decide)
     (by decide) (by decide)⟩

theorem findLevel_eq_of_getElem (L : List Nat) (len i : Nat)
    (hs : L.Pairwise (· < ·)) (hget : L[i]? = some len) :
    findLevel L len = i := by
  have hi : i < L.length := by
    by_contra h
    rw [List.getElem?_eq_none (by omega)] at hget
    exact Option.noConfusion hget
  have hmem : len ∈ L := by
    obtain ⟨h, hv⟩ := List.getElem?_eq_some.mp hget
    exact hv ▸ List.getElem_mem h
  have hfl := (findLevel_mem_iff L len hs).mp hmem
  have hj : findLevel L len < L.length := by
    by_contra h
    rw [List.getElem?_eq_none (by omega)] at hfl
    exact Option.noConfusion hfl
  obtain ⟨h1, hv1⟩ := List.getElem?_eq_some.mp hget
  obtain ⟨h2, hv2⟩ := List.getElem?_eq_some.mp hfl
  by_contra hne
  have hpg := List.pairwise_iff_getElem.mp hs
  rcases Nat.lt_or_ge (findLevel L len) i with hlt | hge
  · have := hpg _ _ h2 h1 hlt
    omega
  · have hlt2 : i < findLevel L len := by omega
    have := hpg _ _ h1 h2 hlt2
    omega

/-- C10 counterexample: the ladder loop stops at the first entry that is
*not below* the indent length, not at the first entry *strictly greater*.
On `"- A\n\t- B\n\t- C"` the ladder before line 2 is `[0, 4]` and line 2's
normalized indent length is `4`: the parser assigns level
`findLevel [0, 4] 4 = 1` (placing `C` as a sibling of `B` under `A`),
whereas the position of the first strictly greater entry is `2` (which
would make `C` a child of `B`). -/
theorem parser_ladder_strictly_greater_false :
    normLen "\t" = 4 ∧
    (((splitLines "- A\n\t- B\n\t- C").enum.take 2).foldl
        (fun st p => parseStep st p.1 p.2) ⟨[], [], []⟩).indentLevels =
      [0, 4] ∧
    findLevel [0, 4] 4 = 1 ∧
    List.findIdx (fun e => decide (4 < e)) [0, 4] = 2 ∧
    parseRaw "- A\n\t- B\n\t- C" =
      [⟨"A", "", "-", 0, 0, none⟩, ⟨"B", "\t", "-", 1, 1, some 0⟩,
       ⟨"C", "\t", "-", 2, 1, some 0⟩] ∧
    (1 : Nat) ≠ 2 := by
  refine ⟨by decide, by decide, by decide, by decide, by decide, by decide⟩

/-- C10 amended: the parser assigns each matching line the position of the
first ladder entry that is *greater than or equal to* its normalized
indent length (the ladder length if there is none), inserting the length
there when it is not already present; a line whose length equals an
existing entry of the (strictly sorted) ladder is placed exactly at that
entry's position.  Concretely, the mixed-indentation document
`"- A\n  - B\n\t- C\n- D"` parses with levels `0, 1, 2, 0`. -/
theorem parser_ladder_level_first_not_below :
    (∀ (L : List Nat) (len : Nat),
      findLevel L len = L.findIdx (fun e => len ≤ e)) ∧
    (∀ (L : List Nat) (len : Nat), L.Pairwise (· < ·) →
      (len ∈ L ↔ L[findLevel L len]? = some len)) ∧
    (∀ (L : List Nat) (len i : Nat), L.Pairwise (· < ·) →
      L[i]? = some len → findLevel L len = i) ∧
    parseRaw "- A\n  - B\n\t- C\n- D" =
      [⟨"A", "", "-", 0, 0, none⟩, ⟨"B", "  ", "-", 1, 1, some 0⟩,
       ⟨"C", "\t", "-", 2, 2, some 1⟩, ⟨"D", "", "-", 3, 0, none⟩] :=
  ⟨findLevel_eq_findIdx, findLevel_mem_iff,
   findLevel_eq_of_getElem, by decide⟩

/-- Witness for C10: on the strictly sorted ladder `[0, 4]`, the length
`4` equals the entry at position `1` and the parser's level is `1`. -/
theorem parser_ladder_level_first_not_below_witness :
    (4 ∈ ([0, 4] : List Nat) ↔ ([0, 4] : List Nat)[findLevel [0, 4] 4]? =
      some 4) ∧
    findLevel [0, 4] 4 = 1 :=
  ⟨parser_ladder_level_first_not_below.2.1 [0, 4] 4 (by decide),
   parser_ladder_level_first_not_below.2.2.1 [0, 4] 4 1 (by decide)
     (by decide)⟩
